import Mathlib

/-!
Verification development for the XAI decision-engine web application.

The data model and the presentation-layer computations (dashboard filters,
stats aggregation, approval-explanation selection, result-screen rendering,
polling state updates) are embedded from the React sources
(EmployeeDashboard.tsx, CustomerPortal.tsx, PolicyManager.tsx,
ExplanationEditor, AiResult, customer/page.tsx).  The backend workflow
operations (Submit validation, Classify, HumanDecide, EditExplanation) are
not part of the shipped sources; they are modelled from the specification
and marked as such in their doc comments.
-/

/-- Lowercases an ASCII letter, leaving every other character unchanged.
Models the effect of JavaScript toLowerCase() on the ASCII labels and
status strings used by the application. -/
def lowerChar (c : Char) : Char :=
  if 65 ≤ c.toNat ∧ c.toNat ≤ 90 then Char.ofNat (c.toNat + 32) else c

/-- ASCII lowercasing of a string, modelling JavaScript toLowerCase(). -/
def lowerStr (s : String) : String :=
  String.mk (s.data.map lowerChar)

/-- Substring occurrence test on character lists: true when pat occurs
contiguously inside hay.  Models JavaScript String.prototype.includes. -/
def subOccurs (pat : List Char) : List Char → Bool
  | [] => pat.isEmpty
  | c :: rest => pat.isPrefixOf (c :: rest) || subOccurs pat rest

/-- String form of subOccurs: strIncludes s pat models s.includes(pat). -/
def strIncludes (s pat : String) : Bool :=
  subOccurs pat.data s.data

/-- Model output attached to a record: label plus a display confidence
(stored in basis points so it stays an exact integer). -/
structure ModelOutput where
  label : String
  confidence : Int
deriving DecidableEq, Repr

/-- Customer-facing explanation text of a record. -/
structure Explanation where
  summary : String
deriving DecidableEq, Repr

/-- Decision part of the rich AI result. -/
structure Decision where
  status : String
  reasoning : String
  confidence : Int
deriving DecidableEq, Repr

/-- Fairness block of the rich AI result. -/
structure Fairness where
  assessment : String
  concerns : String
deriving DecidableEq, Repr

/-- Rich AI result produced once by the external classifier. -/
structure AiResult where
  decision : Decision
  alternative_reasoning : Option String
  counterfactuals : List String
  fairness : Option Fairness
deriving DecidableEq, Repr

/-- Scalar form-field value: string or number. -/
inductive FieldValue where
  | str (s : String)
  | num (n : Int)
deriving DecidableEq, Repr

/-- Lifecycle state of an application record (spec section 4.1). -/
inductive RecStatus where
  | pending_ai
  | pending_human
  | completed
deriving DecidableEq, Repr

/-- Application record as handled by the dashboard and the workflow
(CaseData in ui/app/lib/types, plus the lifecycle status from the spec). -/
structure CaseData where
  decision_id : String
  domain : String
  applicant_name : Option String
  input_features : List (String × FieldValue)
  status : RecStatus
  model_output : ModelOutput
  ai_result : Option AiResult
  explanation : Explanation
  is_override : Bool
  timestamp : String
deriving DecidableEq, Repr

/-- Positive label vocabulary shared by the dashboard stats and filters
(EmployeeDashboard.tsx, the positiveTerms arrays). -/
def positiveTerms : List String :=
  ["approved", "hired", "low risk", "low_risk"]

/-- Dashboard case-list filter selector (FilterType in
EmployeeDashboard.tsx). -/
inductive FilterType where
  | All
  | Approved
  | Denied
  | Pending
deriving DecidableEq, Repr

/-- Textual value of an input feature, as applicant_id?.toString() renders
it in the search predicate. -/
def fieldValueText : FieldValue → String
  | .str s => s
  | .num n => toString n

/-- Search predicate of the dashboard list (the final filter inside
filteredCases, EmployeeDashboard.tsx lines 152-155): matches when the
query occurs in the stringified applicant_id feature or, lowercased, in
the lowercased decision_id. -/
def matchesSearch (q : String) (c : CaseData) : Bool :=
  strIncludes ((c.input_features.lookup "applicant_id").map fieldValueText |>.getD "") q
    || strIncludes (lowerStr c.decision_id) (lowerStr q)

/-- Status-filter predicate of the dashboard list (the Filter Logic block
of filteredCases, EmployeeDashboard.tsx lines 138-149). -/
def passesFilter (f : FilterType) (c : CaseData) : Bool :=
  match f with
  | .All => true
  | .Pending => c.model_output.label == "Pending"
  | .Approved =>
      !(c.model_output.label == "Pending")
        && positiveTerms.contains (lowerStr c.model_output.label)
  | .Denied =>
      !(c.model_output.label == "Pending")
        && !(positiveTerms.contains (lowerStr c.model_output.label))

/-- Dashboard case list after the status filter and the search filter
(filteredCases in EmployeeDashboard.tsx, for a selected category whose
cases are the given list). -/
def filteredCases (f : FilterType) (q : String) (cases : List CaseData) :
    List CaseData :=
  (cases.filter (passesFilter f)).filter (matchesSearch q)

theorem subOccurs_nil (hay : List Char) : subOccurs [] hay = true := by
  induction hay with
  | nil => rfl
  | cons c rest ih => simp [subOccurs, List.isPrefixOf]

theorem matchesSearch_empty (c : CaseData) : matchesSearch "" c = true := by
  simp [matchesSearch, strIncludes, subOccurs_nil, lowerStr]

theorem filter_matchesSearch_empty (l : List CaseData) :
    l.filter (matchesSearch "") = l := by
  induction l with
  | nil => rfl
  | cons c rest ih => simp [List.filter, matchesSearch_empty, ih]

theorem lower_pending_not_positive :
    lowerStr "Pending" ∉ positiveTerms := by decide

/-- Claim C1: with an empty search query, the Approved filter yields exactly
the records whose lowercased label is in the positive vocabulary, the
Pending filter yields exactly the records whose label equals Pending, and
the Denied filter yields exactly the records whose label is neither
Pending nor in the positive vocabulary. -/
theorem c1_filter_correctness (cases : List CaseData) :
    filteredCases .Approved "" cases
        = cases.filter
            (fun c => positiveTerms.contains (lowerStr c.model_output.label))
      ∧ filteredCases .Pending "" cases
        = cases.filter (fun c => c.model_output.label == "Pending")
      ∧ filteredCases .Denied "" cases
        = cases.filter
            (fun c => !(c.model_output.label == "Pending")
              && !(positiveTerms.contains (lowerStr c.model_output.label))) := by
  refine ⟨?_, ?_, ?_⟩
  · rw [filteredCases, filter_matchesSearch_empty]
    apply List.filter_congr
    intro c _
    by_cases h : c.model_output.label = "Pending"
    · simp [passesFilter, h, lower_pending_not_positive]
    · simp [passesFilter, h]
  · rw [filteredCases, filter_matchesSearch_empty]
    rfl
  · rw [filteredCases, filter_matchesSearch_empty]
    rfl

/-- Dashboard statistics (getStats in EmployeeDashboard.tsx lines 54-61):
pending counts the exact label Pending, approved counts lowercased labels
in the positive vocabulary, declined is the remainder of the total. -/
structure Stats where
  pending : Nat
  approved : Nat
  declined : Nat
  total : Nat
deriving DecidableEq, Repr

/-- Stats aggregation of the employee dashboard, embedded from getStats. -/
def getStats (data : List CaseData) : Stats :=
  let pending := (data.filter (fun d => d.model_output.label == "Pending")).length
  let approved :=
    (data.filter (fun d => positiveTerms.contains (lowerStr d.model_output.label))).length
  { pending := pending
    approved := approved
    declined := data.length - approved - pending
    total := data.length }

theorem filter_partition_length {α : Type} (p q : α → Bool)
    (hdisj : ∀ a, p a = true → q a = false) (l : List α) :
    (l.filter p).length + (l.filter q).length
      + (l.filter (fun a => !(p a) && !(q a))).length = l.length := by
  induction l with
  | nil => rfl
  | cons c rest ih =>
    rcases hp : p c with _ | _
    · rcases hq : q c with _ | _
      · simp only [List.filter, hp, hq, Bool.not_false, Bool.not_true,
          Bool.and_self, Bool.and_false, Bool.false_and, Bool.and_true,
          Bool.true_and, List.length_cons]
        omega
      · simp only [List.filter, hp, hq, Bool.not_false, Bool.not_true,
          Bool.and_self, Bool.and_false, Bool.false_and, Bool.and_true,
          Bool.true_and, List.length_cons]
        omega
    · simp only [List.filter, hp, hdisj c hp, Bool.not_false, Bool.not_true,
        Bool.and_self, Bool.and_false, Bool.false_and, Bool.and_true,
        Bool.true_and, List.length_cons]
      omega

theorem stats_partition_length (data : List CaseData) :
    (data.filter (fun d => d.model_output.label == "Pending")).length
      + (data.filter (fun d => positiveTerms.contains (lowerStr d.model_output.label))).length
      + (data.filter (fun d => !(d.model_output.label == "Pending")
          && !(positiveTerms.contains (lowerStr d.model_output.label)))).length
      = data.length := by
  refine filter_partition_length _ _ ?_ data
  intro a ha
  have hlbl : a.model_output.label = "Pending" := by
    exact eq_of_beq ha
  rw [hlbl]
  decide

/-- Claim C7: getStats counts pending as the records labelled exactly
Pending, approved as the records whose lowercased label is in the positive
vocabulary, declined as everything else (non-pending labels outside the
positive vocabulary), and the three counts sum to the total. -/
theorem c7_stats_partition (data : List CaseData) :
    (getStats data).pending
        = (data.filter (fun d => d.model_output.label == "Pending")).length
      ∧ (getStats data).approved
        = (data.filter
            (fun d => positiveTerms.contains (lowerStr d.model_output.label))).length
      ∧ (getStats data).declined
        = (data.filter (fun d => !(d.model_output.label == "Pending")
            && !(positiveTerms.contains (lowerStr d.model_output.label)))).length
      ∧ (getStats data).pending + (getStats data).approved + (getStats data).declined
        = (getStats data).total := by
  have hpart := stats_partition_length data
  refine ⟨rfl, rfl, ?_, ?_⟩
  · simp only [getStats]
    omega
  · simp only [getStats]
    omega

/-- Fallback explanation used by the Approve action when no usable AI
reasoning is available (handleAction in EmployeeDashboard.tsx). -/
def defaultApprovalExplanation : String :=
  "Manually approved by auditor based on provided evidence."

/-- Explanation selected by the Approve action and passed to
updateApplicationStatus (handleAction in EmployeeDashboard.tsx lines
86-99): AI reasoning when the AI itself approved, otherwise the
alternative reasoning when non-empty (the JavaScript or-else on a falsy
string), otherwise the fixed fallback text. -/
def approvalExplanation (c : CaseData) : String :=
  match c.ai_result with
  | none => defaultApprovalExplanation
  | some ar =>
      if lowerStr ar.decision.status == "approved" then ar.decision.reasoning
      else
        match ar.alternative_reasoning with
        | some s => if s == "" then defaultApprovalExplanation else s
        | none => defaultApprovalExplanation

/-- Claim C9: the Approve action passes the AI reasoning when the AI
status lowercases to approved, the non-empty alternative reasoning when
the AI status is anything else, and the fixed fallback text otherwise,
including when no AI result is present. -/
theorem c9_approval_explanation (c : CaseData) :
    (c.ai_result = none → approvalExplanation c = defaultApprovalExplanation)
      ∧ (∀ ar, c.ai_result = some ar → lowerStr ar.decision.status = "approved" →
          approvalExplanation c = ar.decision.reasoning)
      ∧ (∀ ar s, c.ai_result = some ar → lowerStr ar.decision.status ≠ "approved" →
          ar.alternative_reasoning = some s → s ≠ "" →
          approvalExplanation c = s)
      ∧ (∀ ar, c.ai_result = some ar → lowerStr ar.decision.status ≠ "approved" →
          (ar.alternative_reasoning = none ∨ ar.alternative_reasoning = some "") →
          approvalExplanation c = defaultApprovalExplanation) := by
  refine ⟨?_, ?_, ?_, ?_⟩
  · intro h; simp [approvalExplanation, h]
  · intro ar har hst
    simp [approvalExplanation, har, hst]
  · intro ar s har hst halt hne
    simp [approvalExplanation, har, hst, halt, hne]
  · intro ar har hst halt
    rcases halt with h | h <;> simp [approvalExplanation, har, hst, h]

/-- Example AI result for a case the AI denied, with a non-empty
alternative reasoning. -/
def exDeniedAiResult : AiResult where
  decision := { status := "Denied", reasoning := "Low score.", confidence := 8200 }
  alternative_reasoning := some "Income verified manually."
  counterfactuals := []
  fairness := none

/-- Example pending-human case carrying exDeniedAiResult. -/
def exDeniedCase : CaseData where
  decision_id := "d1"
  domain := "loan"
  applicant_name := none
  input_features := []
  status := .pending_human
  model_output := { label := "Denied", confidence := 8200 }
  ai_result := some exDeniedAiResult
  explanation := { summary := "Low score." }
  is_override := false
  timestamp := "t"

/-- Concrete instance of claim C9: a case the AI denied, carrying a
non-empty alternative reasoning, yields that alternative reasoning. -/
theorem c9_approval_explanation_witness :
    approvalExplanation exDeniedCase = "Income verified manually." := by
  exact (c9_approval_explanation exDeniedCase).2.2.1 exDeniedAiResult
    "Income verified manually." rfl (by decide) rfl (by decide)

/-- Heading shown by the customer result screen when the decision is not
classified as denied (AiResult component). -/
def approvedHeading : String :=
  "Congratulations! Your application has been approved."

/-- Denial test of the customer result screen (AiResult component):
true exactly for the lowercased decision texts denied and high risk. -/
def isDeniedView (decisionText : String) : Bool :=
  lowerStr decisionText == "denied" || lowerStr decisionText == "high risk"

/-- Heading rendered by the customer result screen: the decision text when
denied, the congratulations message otherwise. -/
def resultHeading (decisionText : String) : String :=
  if isDeniedView decisionText then decisionText else approvedHeading

/-- Claim C10: the result view classifies a decision as denied exactly when
its lowercased text is denied or high risk; in particular rejected and
high_risk are rendered as approved with the congratulations heading. -/
theorem c10_denial_classification (d : String) :
    (isDeniedView d = true ↔ (lowerStr d = "denied" ∨ lowerStr d = "high risk"))
      ∧ isDeniedView "rejected" = false
      ∧ isDeniedView "high_risk" = false
      ∧ resultHeading "rejected" = approvedHeading
      ∧ resultHeading "high_risk" = approvedHeading := by
  refine ⟨?_, by decide, by decide, by decide, by decide⟩
  simp [isDeniedView]

/-- Client-side polling status of the customer portal (pollStatus state in
CustomerPortal.tsx). -/
inductive PollStatus where
  | idle
  | waiting
  | completed
deriving DecidableEq, Repr

/-- Result view assembled by the customer poller once a terminal label is
observed (the setAiResult payload in CustomerPortal.tsx lines 31-35). -/
structure AiResultView where
  decision : String
  summary : String
  counterfactuals : Option (List String)
deriving DecidableEq, Repr

/-- Poll state of the customer portal: the waiting flag and the recorded
result. -/
structure PollState where
  pollStatus : PollStatus
  aiResult : Option AiResultView
deriving DecidableEq, Repr

/-- Response of getApplicationStatus as consumed by the customer poller. -/
structure StatusResponse where
  model_output : ModelOutput
  explanation : Explanation
  ai_result : Option AiResult
deriving DecidableEq, Repr

/-- Poll interval of the single-application status poller
(setInterval delay in CustomerPortal.tsx line 39), in milliseconds. -/
def customerPollIntervalMs : Nat := 2000

/-- Poll interval of the dashboard listing pollers (setInterval delays in
EmployeeDashboard.tsx line 49 and the unnamed dashboard source), in
milliseconds. -/
def dashboardPollIntervalMs : Nat := 5000

/-- One tick of the customer status poller (the setInterval body of the
polling effect in CustomerPortal.tsx lines 26-39).  The tick only runs in
the waiting state; a failed fetch is caught and logged, leaving the state
untouched; a response still labelled Pending changes nothing; any other
label records the result view and completes the poll. -/
def pollTick (s : PollState) (fetched : Except Unit StatusResponse) :
    PollState :=
  if s.pollStatus = .waiting then
    match fetched with
    | .error _ => s
    | .ok st =>
        if !(st.model_output.label == "Pending") then
          { pollStatus := .completed
            aiResult := some
              { decision := st.model_output.label
                summary := st.explanation.summary
                counterfactuals := st.ai_result.map (fun ar => ar.counterfactuals) } }
        else s
  else s

/-- Outcome of one dashboard fetch tick (fetchApplications in the unnamed
dashboard source): the applications list, the loading flag, and any
message surfaced to the user by that tick. -/
structure FetchOutcome (α : Type) where
  applications : List α
  loading : Bool
  surfaced : Option String
deriving DecidableEq, Repr

/-- One tick of the dashboard listing poller (fetchApplications in the
unnamed dashboard source, lines 59-70): a successful fetch replaces the
applications list; a failure is logged only, keeping the previous list; in
both cases loading ends and nothing is surfaced to the user. -/
def fetchApplicationsTick {α : Type} (apps : List α)
    (fetched : Except Unit (List α)) : FetchOutcome α :=
  match fetched with
  | .ok data => { applications := data, loading := false, surfaced := none }
  | .error _ => { applications := apps, loading := false, surfaced := none }

/-- Claim C5: a waiting poll tick leaves the waiting state and records the
result exactly when the observed label differs from Pending; a tick
observing Pending leaves the poll state unchanged (so polling continues);
the observed intervals are 2 seconds for single-application status and 5
seconds for dashboard listings. -/
theorem c5_poll_terminal_condition (s : PollState) (st : StatusResponse)
    (hw : s.pollStatus = .waiting) :
    (st.model_output.label ≠ "Pending" →
        (pollTick s (.ok st)).pollStatus = .completed
          ∧ (pollTick s (.ok st)).aiResult = some
              { decision := st.model_output.label
                summary := st.explanation.summary
                counterfactuals := st.ai_result.map (fun ar => ar.counterfactuals) })
      ∧ (st.model_output.label = "Pending" → pollTick s (.ok st) = s)
      ∧ customerPollIntervalMs = 2000 ∧ dashboardPollIntervalMs = 5000 := by
  refine ⟨?_, ?_, rfl, rfl⟩
  · intro hne
    have hb : (st.model_output.label == "Pending") = false := by
      exact beq_false_of_ne hne
    constructor <;> simp [pollTick, hw, hb]
  · intro heq
    have hb : (st.model_output.label == "Pending") = true := by
      exact beq_of_eq heq
    simp [pollTick, hw, hb]

/-- Concrete instance of claim C5: a waiting poller observing the label
Approved completes, and one observing Pending is unchanged. -/
theorem c5_poll_terminal_condition_witness :
    (pollTick { pollStatus := .waiting, aiResult := none }
        (.ok { model_output := { label := "Approved", confidence := 9000 },
               explanation := { summary := "ok" },
               ai_result := none })).pollStatus = .completed
      ∧ pollTick { pollStatus := .waiting, aiResult := none }
          (.ok { model_output := { label := "Pending", confidence := 0 },
                 explanation := { summary := "" },
                 ai_result := none })
        = { pollStatus := .waiting, aiResult := none } := by
  constructor
  · exact ((c5_poll_terminal_condition
      { pollStatus := .waiting, aiResult := none }
      { model_output := { label := "Approved", confidence := 9000 },
        explanation := { summary := "ok" }, ai_result := none }
      rfl).1 (by decide)).1
  · exact (c5_poll_terminal_condition
      { pollStatus := .waiting, aiResult := none }
      { model_output := { label := "Pending", confidence := 0 },
        explanation := { summary := "" }, ai_result := none }
      rfl).2.1 rfl

/-- Claim C6: a failed fetch on a poll tick is swallowed at the poller
level: the customer poll state is completely unchanged (so the loop keeps
running and retries on the next tick) and the dashboard fetch keeps its
previous applications list and surfaces no message to the user. -/
theorem c6_poll_fault_tolerance (s : PollState) (apps : List CaseData) :
    pollTick s (.error ()) = s
      ∧ (fetchApplicationsTick apps (.error ())).applications = apps
      ∧ (fetchApplicationsTick apps (.error ())).surfaced = none := by
  refine ⟨?_, rfl, rfl⟩
  by_cases hw : s.pollStatus = PollStatus.waiting <;> simp [pollTick, hw]

/-- User-visible message produced by the failure branch of the review
decision handler (handleDecision in the unnamed dashboard source: alert on
catch). -/
def decisionFailureSurface : Option String :=
  some "Failed to submit decision. Please refresh."

/-- User-visible message produced by the failure branch of the explanation
save handler (handleSave in ExplanationEditor: setError on catch). -/
def explanationSaveFailureSurface : Option String :=
  some "Failed to save explanation. Please try again."

/-- User-visible message produced by the failure branch of handleAddPolicy
(PolicyManager.tsx lines 39-52): the catch block only calls console.error,
so nothing is surfaced. -/
def addPolicyFailureSurface : Option String := none

/-- User-visible message produced by the failure branch of
handleDeletePolicy (PolicyManager.tsx lines 54-64): the catch block only
calls console.error, so nothing is surfaced. -/
def deletePolicyFailureSurface : Option String := none

/-- User-visible message produced by the failure branch of the policy file
upload handler (handleFileUpload in PolicyManager.tsx: alert on catch). -/
def uploadPolicyFailureSurface : Option String :=
  some "Error uploading file. Please check the format."

/-- User-visible message produced by the failure branch of the customer
portal submission handler (handleFormSubmit in CustomerPortal.tsx: alert
on catch). -/
def portalSubmitFailureSurface : Option String :=
  some "Submission failed. Please try again."

/-- User-visible message produced by the failure branch of the customer
page submission handler (handleSubmit in customer/page.tsx: setError with
the error message or a generic fallback). -/
def pageSubmitFailureSurface (errMessage : Option String) : Option String :=
  some (match errMessage with
    | some m => if m == "" then "Failed to submit application" else m
    | none => "Failed to submit application")

/-- User-visible message produced by a failure of the Approve action of
the employee dashboard (handleAction in EmployeeDashboard.tsx line 99):
the awaited api.updateApplicationStatus call has no try/catch anywhere on
its path (the caller is a plain onClick), so a failure is an unhandled
promise rejection and nothing is surfaced to the user. -/
def dashboardApproveFailureSurface : Option String := none

/-- Mutating operations invoked from the presentation layer.
humanDecision is the review decision of the unnamed dashboard source
(handleDecision); dashboardApprove is the Approve action of
EmployeeDashboard.tsx (handleAction); the Denied action of the same
dashboard runs through the explanation editor and is covered by
explanationSave. -/
inductive MutationKind where
  | humanDecision
  | dashboardApprove
  | explanationSave
  | policyAdd
  | policyDelete
  | policyUpload
  | portalSubmission
  | pageSubmission
deriving DecidableEq, Repr

/-- Message surfaced to the user when the underlying call of the given
mutating operation fails, collecting the catch blocks (or their absence)
of the presentation handlers. -/
def failureSurface (errMessage : Option String) :
    MutationKind → Option String
  | .humanDecision => decisionFailureSurface
  | .dashboardApprove => dashboardApproveFailureSurface
  | .explanationSave => explanationSaveFailureSurface
  | .policyAdd => addPolicyFailureSurface
  | .policyDelete => deletePolicyFailureSurface
  | .policyUpload => uploadPolicyFailureSurface
  | .portalSubmission => portalSubmitFailureSurface
  | .pageSubmission => pageSubmitFailureSurface errMessage

/-- Counterexample to claim C8 as stated: a failed policy add or delete is
only logged, and a failed dashboard Approve decision is an uncaught
rejection, so not every failed mutation surfaces a user-visible
message. -/
theorem c8_silent_swallow_counterexample :
    failureSurface none MutationKind.policyAdd = none
      ∧ failureSurface none MutationKind.policyDelete = none
      ∧ failureSurface none MutationKind.dashboardApprove = none
      ∧ ¬ (∀ (em : Option String) (k : MutationKind),
            (failureSurface em k).isSome = true) := by
  refine ⟨rfl, rfl, rfl, ?_⟩
  intro h
  have hpa := h none MutationKind.policyAdd
  simp [failureSurface, addPolicyFailureSurface] at hpa

/-- Claim C8 amended: every failed mutating presentation-layer operation
except policy add, policy delete and the dashboard Approve action
surfaces a user-visible message; policy add and delete failures are only
logged to the console, and a failed dashboard Approve is an uncaught
promise rejection that surfaces nothing. -/
theorem c8_failure_surfacing_amended (em : Option String) (k : MutationKind)
    (hadd : k ≠ MutationKind.policyAdd) (hdel : k ≠ MutationKind.policyDelete)
    (happ : k ≠ MutationKind.dashboardApprove) :
    (failureSurface em k).isSome = true := by
  cases k with
  | policyAdd => exact absurd rfl hadd
  | policyDelete => exact absurd rfl hdel
  | dashboardApprove => exact absurd rfl happ
  | humanDecision => rfl
  | explanationSave => rfl
  | policyUpload => rfl
  | portalSubmission => rfl
  | pageSubmission =>
      cases em with
      | none => rfl
      | some m =>
          by_cases hm : m == ""
          · simp [failureSurface, pageSubmitFailureSurface, hm]
          · simp [failureSurface, pageSubmitFailureSurface, hm]

/-- Concrete instance of the amended claim C8: a failed human decision in
the unnamed dashboard surfaces a message. -/
theorem c8_failure_surfacing_amended_witness :
    (failureSurface none MutationKind.humanDecision).isSome = true := by
  exact c8_failure_surfacing_amended none MutationKind.humanDecision
    (by decide) (by decide) (by decide)

/-- Application domains (spec section 3 and the Domain union type in
customer/page.tsx). -/
inductive Domain where
  | loan
  | credit
  | insurance
  | job
deriving DecidableEq, Repr

/-- Display name of a domain, as used in record fields and API paths. -/
def domainName : Domain → String
  | .loan => "loan"
  | .credit => "credit"
  | .insurance => "insurance"
  | .job => "job"

/-- Required-field set of each domain form (the required inputs of
renderFormFields in customer/page.tsx, plus the always-required
full_name). -/
def requiredFields : Domain → List String
  | .loan => ["full_name", "age", "gender", "marital_status",
      "employment_years", "employment_type", "monthly_income",
      "existing_debt", "credit_score", "loan_amount", "loan_purpose"]
  | .job => ["full_name", "job_title", "years_experience",
      "education_level", "companies_worked", "career_gaps",
      "expected_salary"]
  | .credit => ["full_name", "customer_id", "credit_score",
      "annual_income", "accounts_open", "credit_history_years", "defaults"]
  | .insurance => ["full_name", "age", "policy_type", "policy_years",
      "previous_claims", "claim_amount", "incident_severity"]

/-- Numeric fields of each domain form (the number-typed inputs of
renderFormFields in customer/page.tsx). -/
def numericFields : Domain → List String
  | .loan => ["age", "employment_years", "monthly_income",
      "existing_debt", "credit_score", "loan_amount"]
  | .job => ["years_experience", "companies_worked", "career_gaps",
      "expected_salary"]
  | .credit => ["credit_score", "annual_income", "accounts_open",
      "credit_history_years", "defaults"]
  | .insurance => ["age", "policy_years", "previous_claims",
      "claim_amount"]

/-- Numeric value of a digit list read in base ten. -/
def digitsValue (cs : List Char) : Nat :=
  cs.foldl (fun acc c => acc * 10 + (c.toNat - 48)) 0

/-- Modelled from the spec: integer parsing standing in for the numeric
type coercion of Submit ("numeric fields that do not parse"); the backend
performing the coercion is not among the shipped sources.  Accepts an
optional leading minus sign followed by at least one digit. -/
def parseNumber (s : String) : Option Int :=
  match s.data with
  | [] => none
  | c :: rest =>
      if c = '-' then
        if rest ≠ [] ∧ rest.all Char.isDigit then
          some (-(digitsValue rest : Int))
        else none
      else if (c :: rest).all Char.isDigit then
        some ((digitsValue (c :: rest) : Int))
      else none

/-- Validation failure test for one field of a submission payload: the
field is missing from the payload, or it is numeric and its value does
not parse as a number. -/
def badField (d : Domain) (payload : List (String × String))
    (f : String) : Bool :=
  match payload.lookup f with
  | none => true
  | some v => (numericFields d).contains f && (parseNumber v).isNone

/-- Modelled from the spec: the payload validation of Submit (spec section
4.1, transition 1: reject with ValidationError if any required field is
missing or fails type coercion); the backend service is not among the
shipped sources.  Returns the first offending required field. -/
def findInvalidField (d : Domain) (payload : List (String × String)) :
    Option String :=
  (requiredFields d).find? (badField d payload)

/-- Error raised by a rejected submission (spec section 7). -/
inductive SubmitError where
  | ValidationError (field : String)
deriving DecidableEq, Repr

/-- Coerces one payload field to its stored scalar value: numeric fields
parse to numbers, everything else stays a string. -/
def coerceField (d : Domain) (f v : String) : FieldValue :=
  if (numericFields d).contains f then
    match parseNumber v with
    | some n => .num n
    | none => .str v
  else .str v

/-- Modelled from the spec: Submit (spec section 4.1, transition 1):
validates the payload, and on success assigns the new decision id,
persists the record in pending_ai with the sentinel Pending label, no AI
result and is_override false, and returns the created record without
waiting for classification; on failure nothing is persisted.  The backend
service is not among the shipped sources. -/
def submit (store : List CaseData) (d : Domain)
    (payload : List (String × String)) (newId ts : String) :
    List CaseData × Except SubmitError CaseData :=
  match findInvalidField d payload with
  | some f => (store, Except.error (.ValidationError f))
  | none =>
      let created : CaseData :=
        { decision_id := newId
          domain := domainName d
          applicant_name := payload.lookup "full_name"
          input_features := payload.map (fun p => (p.1, coerceField d p.1 p.2))
          status := .pending_ai
          model_output := { label := "Pending", confidence := 0 }
          ai_result := none
          explanation := { summary := "" }
          is_override := false
          timestamp := ts }
      (created :: store, Except.ok created)

theorem badField_iff (d : Domain) (payload : List (String × String))
    (f : String) :
    badField d payload f = true
      ↔ (payload.lookup f = none
          ∨ ((numericFields d).contains f = true
              ∧ ∃ v, payload.lookup f = some v ∧ parseNumber v = none)) := by
  rcases hl : payload.lookup f with _ | v
  · simp [badField, hl]
  · simp only [badField, hl, Bool.and_eq_true, Option.isNone_iff_eq_none]
    constructor
    · rintro ⟨hc, hp⟩
      exact Or.inr ⟨hc, v, rfl, hp⟩
    · rintro (h | ⟨hc, w, hw, hpw⟩)
      · exact Option.noConfusion h
      · injection hw with hvw
        subst hvw
        exact ⟨hc, hpw⟩

/-- Claim C3: Submit rejects with ValidationError and persists nothing
whenever some required field of the domain schema is missing or a numeric
field fails type coercion, and on every valid payload returns the created
record, already persisted, still unclassified (pending_ai, Pending label,
no AI result). -/
theorem c3_submit_validation (store : List CaseData) (d : Domain)
    (payload : List (String × String)) (newId ts : String) :
    ((∃ f, f ∈ requiredFields d
          ∧ (payload.lookup f = none
              ∨ ((numericFields d).contains f = true
                  ∧ ∃ v, payload.lookup f = some v ∧ parseNumber v = none))) →
        (submit store d payload newId ts).1 = store
          ∧ ∃ f, (submit store d payload newId ts).2
              = Except.error (.ValidationError f))
      ∧ ((∀ f ∈ requiredFields d,
            ¬ (payload.lookup f = none
                ∨ ((numericFields d).contains f = true
                    ∧ ∃ v, payload.lookup f = some v ∧ parseNumber v = none))) →
          ∃ r, (submit store d payload newId ts).2 = Except.ok r
            ∧ (submit store d payload newId ts).1 = r :: store
            ∧ r.status = .pending_ai
            ∧ r.model_output.label = "Pending"
            ∧ r.ai_result = none
            ∧ r.is_override = false
            ∧ r.decision_id = newId) := by
  constructor
  · rintro ⟨f, hf, hbad⟩
    have hsome : (findInvalidField d payload).isSome := by
      rw [findInvalidField, List.find?_isSome]
      exact ⟨f, hf, (badField_iff d payload f).2 hbad⟩
    rcases hfi : findInvalidField d payload with _ | g
    · rw [hfi] at hsome; simp at hsome
    · exact ⟨by simp [submit, hfi], g, by simp [submit, hfi]⟩
  · intro hall
    have hnone : findInvalidField d payload = none := by
      rw [findInvalidField, List.find?_eq_none]
      intro f hf
      intro hb
      exact hall f hf ((badField_iff d payload f).1 hb)
    simp only [submit, hnone]
    exact ⟨_, rfl, rfl, rfl, rfl, rfl, rfl, rfl⟩

/-- Example loan payload with every required field present and parseable. -/
def exLoanPayload : List (String × String) :=
  [("full_name", "A B"), ("age", "34"), ("gender", "F"),
   ("marital_status", "Single"), ("employment_years", "6"),
   ("employment_type", "Permanent"), ("monthly_income", "5200"),
   ("existing_debt", "300"), ("credit_score", "550"),
   ("loan_amount", "50000"), ("loan_purpose", "Home")]

/-- Concrete instance of claim C3: a loan payload missing credit_score is
rejected without persisting, and the full loan payload is created in
pending_ai with the Pending label. -/
theorem c3_submit_validation_witness :
    ((submit [] .loan (exLoanPayload.filter (fun p => !(p.1 == "credit_score")))
        "id1" "t").1 = []
      ∧ ∃ f, (submit [] .loan
            (exLoanPayload.filter (fun p => !(p.1 == "credit_score")))
            "id1" "t").2 = Except.error (.ValidationError f))
      ∧ ∃ r, (submit [] .loan exLoanPayload "id1" "t").2 = Except.ok r
          ∧ (submit [] .loan exLoanPayload "id1" "t").1 = r :: []
          ∧ r.status = .pending_ai
          ∧ r.model_output.label = "Pending"
          ∧ r.ai_result = none
          ∧ r.is_override = false
          ∧ r.decision_id = "id1" := by
  constructor
  · exact (c3_submit_validation [] .loan
      (exLoanPayload.filter (fun p => !(p.1 == "credit_score"))) "id1" "t").1
      ⟨"credit_score", by decide, by decide⟩
  · refine (c3_submit_validation [] .loan exLoanPayload "id1" "t").2 ?_
    decide

/-- Modelled from the spec: Classify (spec section 4.1, transition 2):
stores the AI result and the model output, initializes the explanation
from the AI reasoning, and moves the record to completed when the outcome
is clear-cut, otherwise to pending_human; is_override is untouched.  The
backend service is not among the shipped sources. -/
def classifyRecord (c : CaseData) (ar : AiResult) (clearCut : Bool) :
    CaseData :=
  { c with
      ai_result := some ar
      model_output := { label := ar.decision.status
                        confidence := ar.decision.confidence }
      explanation := { summary := ar.decision.reasoning }
      status := if clearCut then .completed else .pending_human }

/-- Modelled from the spec: HumanDecide (spec section 4.1, transition 3):
sets the model output label to the human status, rewrites the explanation
summary, computes is_override as the case-insensitive inequality of the
human status and the AI decision status when an AI result is present
(false otherwise), and moves the record to completed.  The backend
service is not among the shipped sources. -/
def humanDecide (c : CaseData) (status expl : String) : CaseData :=
  { c with
      model_output := { c.model_output with label := status }
      explanation := { summary := expl }
      is_override :=
        match c.ai_result with
        | some ar => !(lowerStr status == lowerStr ar.decision.status)
        | none => false
      status := .completed }

/-- Modelled from the spec: EditExplanation (spec section 4.1, transition
4): overwrites explanation.summary only, leaving status, model_output and
is_override untouched.  The backend service is not among the shipped
sources. -/
def editExplanation (c : CaseData) (text : String) : CaseData :=
  { c with explanation := { summary := text } }

/-- Workflow operation applied to a single application record. -/
inductive WorkflowOp where
  | classify (ar : AiResult) (clearCut : Bool)
  | humanDecide (status expl : String)
  | editExplanation (text : String)

/-- Applies one workflow operation under the state-machine guards of spec
section 4.1: Classify fires only from pending_ai, HumanDecide only once
classification is done (pending_human or completed), EditExplanation in
any state. -/
def applyOp (c : CaseData) : WorkflowOp → CaseData
  | .classify ar cut =>
      if c.status = .pending_ai then classifyRecord c ar cut else c
  | .humanDecide s e =>
      if c.status = .pending_ai then c else humanDecide c s e
  | .editExplanation t => editExplanation c t

/-- Applies a sequence of workflow operations. -/
def runOps (c : CaseData) (ops : List WorkflowOp) : CaseData :=
  ops.foldl applyOp c

/-- A freshly submitted record: pending_ai, sentinel Pending label, no AI
result, no override. -/
def InitialRecord (c : CaseData) : Prop :=
  c.status = .pending_ai ∧ c.ai_result = none ∧ c.is_override = false
    ∧ c.model_output.label = "Pending"

/-- A record reachable from some freshly submitted record by workflow
operations. -/
def ReachableRecord (c : CaseData) : Prop :=
  ∃ c0 ops, InitialRecord c0 ∧ c = runOps c0 ops

/-- The override bookkeeping invariant: an overridden record is completed,
carries an AI result, and its stored label (the human decision) differs
case-insensitively from the AI decision status. -/
def OverrideInvariant (c : CaseData) : Prop :=
  c.is_override = true →
    c.status = .completed
      ∧ ∃ ar, c.ai_result = some ar
          ∧ lowerStr c.model_output.label ≠ lowerStr ar.decision.status

theorem overrideInvariant_step (c : CaseData) (op : WorkflowOp)
    (hc : OverrideInvariant c) : OverrideInvariant (applyOp c op) := by
  cases op with
  | classify ar cut =>
      by_cases hs : c.status = RecStatus.pending_ai
      · intro hov
        have hov0 : c.is_override = true := by
          simpa [applyOp, hs, classifyRecord] using hov
        have := (hc hov0).1
        rw [hs] at this
        exact absurd this (by decide)
      · simpa [applyOp, hs] using hc
  | humanDecide s e =>
      by_cases hs : c.status = RecStatus.pending_ai
      · simpa [applyOp, hs] using hc
      · intro hov
        rcases har : c.ai_result with _ | ar
        · rw [applyOp] at hov
          simp only [hs, if_false, humanDecide, har] at hov
          exact absurd hov (by decide)
        · refine ⟨by simp [applyOp, hs, humanDecide], ar,
            by simp [applyOp, hs, humanDecide, har], ?_⟩
          have hneq : (lowerStr s == lowerStr ar.decision.status) = false := by
            have : (applyOp c (.humanDecide s e)).is_override = true := hov
            simp only [applyOp, hs, if_false, humanDecide, har,
              Bool.not_eq_eq_eq_not, Bool.not_true] at this
            exact this
          simp only [applyOp, hs, if_false, humanDecide, har]
          exact ne_of_beq_false hneq
  | editExplanation t =>
      intro hov
      have hov0 : c.is_override = true := by
        simpa [applyOp, editExplanation] using hov
      rcases hc hov0 with ⟨hst, ar, har, hne⟩
      exact ⟨by simpa [applyOp, editExplanation] using hst, ar,
        by simpa [applyOp, editExplanation] using har,
        by simpa [applyOp, editExplanation] using hne⟩

theorem overrideInvariant_runOps (c : CaseData) (ops : List WorkflowOp)
    (hc : OverrideInvariant c) : OverrideInvariant (runOps c ops) := by
  induction ops generalizing c with
  | nil => exact hc
  | cons op rest ih => exact ih (applyOp c op) (overrideInvariant_step c op hc)

/-- Claim C2: on every reachable record, is_override true implies the
record is completed, carries an AI result, and the AI decision status
differs case-insensitively from the stored human decision label; and
HumanDecide computes is_override exactly as the case-insensitive
inequality of the human status and the AI decision status when an AI
result is present. -/
theorem c2_override_invariant (c : CaseData) (hreach : ReachableRecord c) :
    (c.is_override = true →
        c.status = .completed
          ∧ ∃ ar, c.ai_result = some ar
              ∧ lowerStr c.model_output.label ≠ lowerStr ar.decision.status)
      ∧ (∀ (r : CaseData) (s e : String) (ar : AiResult),
          r.ai_result = some ar →
            (humanDecide r s e).is_override
              = !(lowerStr s == lowerStr ar.decision.status)) := by
  constructor
  · rcases hreach with ⟨c0, ops, hinit, hc⟩
    have hinv0 : OverrideInvariant c0 := by
      intro hov
      rw [hinit.2.2.1] at hov
      exact absurd hov (by decide)
    rw [hc]
    exact overrideInvariant_runOps c0 ops hinv0
  · intro r s e ar har
    simp [humanDecide, har]

/-- Example result of the scenario of spec section 8: a submitted loan
record, classified Denied by the AI, then approved by the human
reviewer. -/
def exOverriddenCase : CaseData :=
  runOps
    { decision_id := "d2"
      domain := "loan"
      applicant_name := some "A B"
      input_features := []
      status := .pending_ai
      model_output := { label := "Pending", confidence := 0 }
      ai_result := none
      explanation := { summary := "" }
      is_override := false
      timestamp := "t" }
    [.classify exDeniedAiResult false,
     .humanDecide "Approved" "Approved after manual income verification"]

/-- Concrete instance of claim C2: the overridden record of the section-8
scenario is completed and its AI decision status differs from the stored
human label. -/
theorem c2_override_invariant_witness :
    exOverriddenCase.status = RecStatus.completed
      ∧ ∃ ar, exOverriddenCase.ai_result = some ar
          ∧ lowerStr exOverriddenCase.model_output.label
              ≠ lowerStr ar.decision.status := by
  exact (c2_override_invariant exOverriddenCase
    ⟨_, _, ⟨rfl, rfl, rfl, rfl⟩, rfl⟩).1 (by decide)

/-- Store lookup by decision id (the get operation of the Decision Store
contract, spec section 4.2). -/
def getRecord (store : List CaseData) (id : String) : Option CaseData :=
  store.find? (fun c => c.decision_id == id)

/-- Modelled from the spec: the store-level updateExplanation operation
reached through the explanation editor (handleSave in ExplanationEditor
calls updateExplanation(applicationId, text)); it rewrites the
explanation summary of the record with the given id and nothing else.
The backend service is not among the shipped sources. -/
def editExplanationStore (store : List CaseData) (id text : String) :
    List CaseData :=
  store.map (fun c => if c.decision_id == id then editExplanation c text else c)

theorem getRecord_editExplanationStore (store : List CaseData)
    (id text : String) :
    getRecord (editExplanationStore store id text) id
      = (getRecord store id).map (fun c => editExplanation c text) := by
  induction store with
  | nil => rfl
  | cons c rest ih =>
      rcases hid : c.decision_id == id with _ | _
      · simp [editExplanationStore, getRecord, List.find?, hid] at ih ⊢
        exact ih
      · simp [editExplanationStore, getRecord, List.find?, hid,
          editExplanation]

/-- Claim C4: editing the explanation of an existing record and reading it
back yields the new summary text while status, model output, override
flag and lifecycle state are unchanged. -/
theorem c4_edit_explanation_roundtrip (store : List CaseData)
    (id text : String) (c : CaseData) (_hne : text ≠ "")
    (hget : getRecord store id = some c) :
    getRecord (editExplanationStore store id text) id
        = some (editExplanation c text)
      ∧ (editExplanation c text).explanation.summary = text
      ∧ (editExplanation c text).status = c.status
      ∧ (editExplanation c text).model_output = c.model_output
      ∧ (editExplanation c text).is_override = c.is_override := by
  refine ⟨?_, rfl, rfl, rfl, rfl⟩
  rw [getRecord_editExplanationStore, hget]
  rfl

/-- Concrete instance of claim C4: editing the explanation of the single
record of a one-record store. -/
theorem c4_edit_explanation_roundtrip_witness :
    getRecord (editExplanationStore [exDeniedCase] "d1" "Updated text.") "d1"
        = some (editExplanation exDeniedCase "Updated text.")
      ∧ (editExplanation exDeniedCase "Updated text.").explanation.summary
        = "Updated text."
      ∧ (editExplanation exDeniedCase "Updated text.").status
        = exDeniedCase.status
      ∧ (editExplanation exDeniedCase "Updated text.").model_output
        = exDeniedCase.model_output
      ∧ (editExplanation exDeniedCase "Updated text.").is_override
        = exDeniedCase.is_override := by
  exact c4_edit_explanation_roundtrip [exDeniedCase] "d1" "Updated text."
    exDeniedCase (by decide) rfl
